import Mathlib

/-!
# Verification of the metadata-extraction core of `url_metadata_crawler.py`

A shallow embedding of the three core functions of the repository:

* `parse_date_to_iso` (the Date Normalizer): a cascade of `datetime.strptime`
  format templates, then a loose `YYYY(sep)MM(sep)DD` regex extraction, then a
  bare four-digit-year fallback;
* `extract_date` (the Candidate Locator): ordered fallback over the
  `article:modified_time` tag, the `article:published_time` tag, a `time`
  element's `datetime` attribute, and a free-text regex search inside a
  `post-header` / `article-header` block;
* `extract_metadata_from_url` (the Document Metadata Extractor): assembles
  title, author and date into one record, converting any exception raised in
  the guarded block into an error record with all content fields null.

Python strings are modelled as `String` / `List Char`; `None` as `Option.none`.
CPython's `_strptime` compiles each format into an anchored regex (with
`re.IGNORECASE`), takes the first match in backtracking order and then fails
with "unconverted data remains" if that match did not consume the whole
string; the numeric directives have the character-exact alternations
reproduced below, and the parsed values then go through the `datetime`
constructor, which validates the calendar date and the time fields.
Nondeterministic regex alternation is modelled by lists of candidate parses in
backtracking order.
-/

/-- ASCII digit value of a character (`ord(c) - ord('0')`). -/
def dval (c : Char) : Nat := c.toNat - 48

/-- Character-code range test, used to transcribe regex character classes. -/
def inR (c : Char) (lo hi : Nat) : Bool := decide (lo ≤ c.toNat ∧ c.toNat ≤ hi)

/-- Whitespace as recognized by Python's `str.strip` / regex `\s`
(ASCII fragment; the inputs in this development are ASCII). -/
def isPySpace (c : Char) : Bool :=
  c == ' ' || c == '\t' || c == '\n' || c == '\r' || c == '\x0b' || c == '\x0c'

/-- Python `str.strip()`: drop leading and trailing whitespace. -/
def pyStrip (l : List Char) : List Char :=
  ((l.dropWhile isPySpace).reverse.dropWhile isPySpace).reverse

/-! ## `_strptime` field regexes

Each directive is a function from the remaining input to the list of
`(value, rest)` candidate parses, in the regex's backtracking order
(alternatives left to right, two-digit branches before the one-digit branch,
exactly as in CPython's `Lib/_strptime.py`). -/

/-- Directive `%Y`: regex `\d\d\d\d`. -/
def reY (s : List Char) : List (Nat × List Char) :=
  match s with
  | a :: b :: c :: d :: r =>
    if a.isDigit && b.isDigit && c.isDigit && d.isDigit then
      [(1000 * dval a + 100 * dval b + 10 * dval c + dval d, r)]
    else []
  | _ => []

/-- Directive `%y`: regex `\d\d`. -/
def re2d (s : List Char) : List (Nat × List Char) :=
  match s with
  | a :: b :: r => if a.isDigit && b.isDigit then [(10 * dval a + dval b, r)] else []
  | _ => []

/-- Directive `%m`: regex `1[0-2]|0[1-9]|[1-9]`. -/
def reM (s : List Char) : List (Nat × List Char) :=
  (match s with
   | a :: b :: r =>
     (if (a == '1') && inR b 48 50 then [(10 + dval b, r)] else []) ++
     (if (a == '0') && inR b 49 57 then [(dval b, r)] else [])
   | _ => []) ++
  (match s with
   | a :: r => if inR a 49 57 then [(dval a, r)] else []
   | _ => [])

/-- Directive `%d`: regex `3[0-1]|[1-2]\d|0[1-9]|[1-9]`. -/
def reD (s : List Char) : List (Nat × List Char) :=
  (match s with
   | a :: b :: r =>
     (if (a == '3') && inR b 48 49 then [(30 + dval b, r)] else []) ++
     (if inR a 49 50 && b.isDigit then [(10 * dval a + dval b, r)] else []) ++
     (if (a == '0') && inR b 49 57 then [(dval b, r)] else [])
   | _ => []) ++
  (match s with
   | a :: r => if inR a 49 57 then [(dval a, r)] else []
   | _ => [])

/-- Directive `%H`: regex `2[0-3]|[0-1]\d|\d`. -/
def reH (s : List Char) : List (Nat × List Char) :=
  (match s with
   | a :: b :: r =>
     (if (a == '2') && inR b 48 51 then [(20 + dval b, r)] else []) ++
     (if inR a 48 49 && b.isDigit then [(10 * dval a + dval b, r)] else [])
   | _ => []) ++
  (match s with
   | a :: r => if a.isDigit then [(dval a, r)] else []
   | _ => [])

/-- Directive `%M`: regex `[0-5]\d|\d`. -/
def reMin (s : List Char) : List (Nat × List Char) :=
  (match s with
   | a :: b :: r => if inR a 48 53 && b.isDigit then [(10 * dval a + dval b, r)] else []
   | _ => []) ++
  (match s with
   | a :: r => if a.isDigit then [(dval a, r)] else []
   | _ => [])

/-- Directive `%S`: regex `6[0-1]|[0-5]\d|\d`. -/
def reS (s : List Char) : List (Nat × List Char) :=
  (match s with
   | a :: b :: r =>
     (if (a == '6') && inR b 48 49 then [(60 + dval b, r)] else []) ++
     (if inR a 48 53 && b.isDigit then [(10 * dval a + dval b, r)] else [])
   | _ => []) ++
  (match s with
   | a :: r => if a.isDigit then [(dval a, r)] else []
   | _ => [])

/-- A literal character of the format string; `_strptime` compiles the whole
regex with `re.IGNORECASE`, so letters match either case. -/
def litCI (pat : Char) (s : List Char) : List (Unit × List Char) :=
  match s with
  | c :: r => if c.toLower == pat.toLower then [((), r)] else []
  | [] => []

/-- Whitespace in a `strptime` format compiles to `\s+` (greedy); candidates
are listed longest first. -/
def reWs (s : List Char) : List (Unit × List Char) :=
  let n := (s.takeWhile isPySpace).length
  (List.range n).map (fun k => ((), s.drop (n - k)))

/-- Abbreviated English month names for `%b` (C-locale `LocaleTime`). -/
def monAbbr : List (String × Nat) :=
  [("jan", 1), ("feb", 2), ("mar", 3), ("apr", 4), ("may", 5), ("jun", 6),
   ("jul", 7), ("aug", 8), ("sep", 9), ("oct", 10), ("nov", 11), ("dec", 12)]

/-- Full English month names for `%B`, sorted longest-first as `_strptime`'s
`__seqToRE` does. -/
def monFull : List (String × Nat) :=
  [("september", 9), ("february", 2), ("november", 11), ("december", 12),
   ("january", 1), ("october", 10), ("august", 8), ("march", 3), ("april", 4),
   ("june", 6), ("july", 7), ("may", 5)]

/-- Case-insensitive match of a (lowercase) name against the input. -/
def matchNameCI : List Char → List Char → Option (List Char)
  | [], s => some s
  | _ :: _, [] => none
  | p :: ps, c :: cs => if c.toLower == p then matchNameCI ps cs else none

/-- Directive `%b` / `%B`: alternation over month names (case-insensitive). -/
def reName (names : List (String × Nat)) (s : List Char) : List (Nat × List Char) :=
  names.foldr
    (fun nv acc =>
      match matchNameCI nv.1.data s with
      | some r => (nv.2, r) :: acc
      | none => acc) []

/-- The `[0-5]\d` fragment inside `%z` (exactly two characters). -/
def reMM55 (s : List Char) : List (Nat × List Char) :=
  match s with
  | a :: b :: r => if inR a 48 53 && b.isDigit then [(10 * dval a + dval b, r)] else []
  | _ => []

/-- The `:?` fragment inside `%z` (greedy: with the colon first). -/
def optColon (s : List Char) : List (Unit × List Char) :=
  match s with
  | c :: r => if c == ':' then [((), r), ((), c :: r)] else [((), c :: r)]
  | [] => [((), [])]

/-- The `(\.\d{1,6})?` fragment inside `%z` (greedy, longest first). -/
def reFracOpt (s : List Char) : List (Unit × List Char) :=
  (match s with
   | '.' :: rest =>
     let k := min (rest.takeWhile Char.isDigit).length 6
     (List.range k).map (fun i => ((), rest.drop (k - i)))
   | _ => []) ++ [((), s)]

/-- The `(:?[0-5]\d(\.\d{1,6})?)?` fragment inside `%z` (greedy). -/
def optSecPart (s : List Char) : List (Nat × List Char) :=
  ((optColon s).flatMap fun pc =>
   (reMM55 pc.2).flatMap fun ps =>
   (reFracOpt ps.2).map fun pf => (ps.1, pf.2)) ++ [(0, s)]

/-- Directive `%z`: regex
`[+-]\d\d:?[0-5]\d(:?[0-5]\d(\.\d{1,6})?)?|(?-i:Z)`, value in offset seconds. -/
def reZ (s : List Char) : List (Int × List Char) :=
  (match s with
   | sign :: rest =>
     if sign == '+' || sign == '-' then
       (re2d rest).flatMap fun ph =>
       (optColon ph.2).flatMap fun pc =>
       (reMM55 pc.2).flatMap fun pm =>
       (optSecPart pm.2).map fun ps =>
         (((if sign == '-' then (-1 : Int) else 1)) *
            (3600 * (ph.1 : Int) + 60 * (pm.1 : Int) + (ps.1 : Int)), ps.2)
     else []
   | [] => []) ++
  (match s with
   | c :: r => if c == 'Z' then [((0 : Int), r)] else []
   | _ => [])

/-! ## `strptime` patterns

Each pattern takes the first regex match in backtracking order, then (as
`_strptime` does) requires that match to consume the whole string, and then
validates the values exactly as the `datetime` constructor does. -/

/-- Days in a month under the proleptic Gregorian calendar used by
`datetime.date`. -/
def daysInMonth (y m : Nat) : Nat :=
  if m = 2 then (if y % 4 = 0 ∧ (y % 100 ≠ 0 ∨ y % 400 = 0) then 29 else 28)
  else if m = 4 ∨ m = 6 ∨ m = 9 ∨ m = 11 then 30 else 31

/-- The `datetime` constructor's date validation (`MINYEAR = 1`,
`MAXYEAR = 9999`). -/
def validDate (y m d : Nat) : Prop :=
  1 ≤ y ∧ y ≤ 9999 ∧ 1 ≤ m ∧ m ≤ 12 ∧ 1 ≤ d ∧ d ≤ daysInMonth y m

instance (y m d : Nat) : Decidable (validDate y m d) := by
  unfold validDate; infer_instance

/-- Build the date if the `datetime` constructor would accept it. -/
def mkDate (y m d : Nat) : Option (Nat × Nat × Nat) :=
  if validDate y m d then some (y, m, d) else none

/-- Take the first regex match (backtracking order) and require it to have
consumed the whole string, as `_strptime` does via
`len(data_string) != found.end()`. -/
def strictFirst {α : Type} (l : List (α × List Char)) : Option α :=
  match l.head? with
  | some p => if p.2.isEmpty then some p.1 else none
  | none => none

/-- Shared chain for `%Y(sep)%m(sep)%d` with `sep` equal to `-` or `/`. -/
def chainYmd (sep : Char) (s : List Char) : List ((Nat × Nat × Nat) × List Char) :=
  (reY s).flatMap fun py =>
  (litCI sep py.2).flatMap fun pa =>
  (reM pa.2).flatMap fun pm =>
  (litCI sep pm.2).flatMap fun pb =>
  (reD pb.2).map fun pd => ((py.1, pm.1, pd.1), pd.2)

/-- Shared chain for `%H:%M:%S`. -/
def chainTime (s : List Char) : List ((Nat × Nat × Nat) × List Char) :=
  (reH s).flatMap fun ph =>
  (litCI ':' ph.2).flatMap fun pa =>
  (reMin pa.2).flatMap fun pm =>
  (litCI ':' pm.2).flatMap fun pb =>
  (reS pb.2).map fun ps => ((ph.1, pm.1, ps.1), ps.2)

/-- Format `"%Y-%m-%d"`. -/
def pat_Ymd (s : List Char) : Option (Nat × Nat × Nat) :=
  match strictFirst (chainYmd '-' s) with
  | some t => mkDate t.1 t.2.1 t.2.2
  | none => none

/-- Format `"%Y-%m-%dT%H:%M:%S%z"`.  The `timezone` constructor additionally
requires the offset to be strictly within a day. -/
def pat_YmdTHMSz (s : List Char) : Option (Nat × Nat × Nat) :=
  match strictFirst ((chainYmd '-' s).flatMap fun pd =>
      (litCI 'T' pd.2).flatMap fun pt =>
      (chainTime pt.2).flatMap fun ph =>
      (reZ ph.2).map fun pz => ((pd.1, ph.1, pz.1), pz.2)) with
  | some t =>
    if t.2.1.1 ≤ 23 ∧ t.2.1.2.1 ≤ 59 ∧ t.2.1.2.2 ≤ 59 ∧
        (-86400 : Int) < t.2.2 ∧ t.2.2 < 86400 then
      mkDate t.1.1 t.1.2.1 t.1.2.2
    else none
  | none => none

/-- Format `"%Y-%m-%dT%H:%M:%S"`. -/
def pat_YmdTHMS (s : List Char) : Option (Nat × Nat × Nat) :=
  match strictFirst ((chainYmd '-' s).flatMap fun pd =>
      (litCI 'T' pd.2).flatMap fun pt =>
      (chainTime pt.2).map fun ph => ((pd.1, ph.1), ph.2)) with
  | some t =>
    if t.2.1 ≤ 23 ∧ t.2.2.1 ≤ 59 ∧ t.2.2.2 ≤ 59 then
      mkDate t.1.1 t.1.2.1 t.1.2.2
    else none
  | none => none

/-- Shared chain for `"%b %d, %Y"` / `"%B %d, %Y"` (format whitespace
compiles to `\s+`). -/
def chain_bdY (names : List (String × Nat)) (s : List Char) :
    List ((Nat × Nat × Nat) × List Char) :=
  (reName names s).flatMap fun pb =>
  (reWs pb.2).flatMap fun pa =>
  (reD pa.2).flatMap fun pd =>
  (litCI ',' pd.2).flatMap fun pc =>
  (reWs pc.2).flatMap fun pe =>
  (reY pe.2).map fun py => ((py.1, pb.1, pd.1), py.2)

/-- Format `"%b %d, %Y"`. -/
def pat_bdY (s : List Char) : Option (Nat × Nat × Nat) :=
  match strictFirst (chain_bdY monAbbr s) with
  | some t => mkDate t.1 t.2.1 t.2.2
  | none => none

/-- Format `"%B %d, %Y"`. -/
def pat_BdY (s : List Char) : Option (Nat × Nat × Nat) :=
  match strictFirst (chain_bdY monFull s) with
  | some t => mkDate t.1 t.2.1 t.2.2
  | none => none

/-- Format `"%m/%d/%Y"`. -/
def pat_mdY (s : List Char) : Option (Nat × Nat × Nat) :=
  match strictFirst ((reM s).flatMap fun pm =>
      (litCI '/' pm.2).flatMap fun pa =>
      (reD pa.2).flatMap fun pd =>
      (litCI '/' pd.2).flatMap fun pb =>
      (reY pb.2).map fun py => ((py.1, pm.1, pd.1), py.2)) with
  | some t => mkDate t.1 t.2.1 t.2.2
  | none => none

/-- Format `"%d/%m/%Y"`. -/
def pat_dmY (s : List Char) : Option (Nat × Nat × Nat) :=
  match strictFirst ((reD s).flatMap fun pd =>
      (litCI '/' pd.2).flatMap fun pa =>
      (reM pa.2).flatMap fun pm =>
      (litCI '/' pm.2).flatMap fun pb =>
      (reY pb.2).map fun py => ((py.1, pm.1, pd.1), py.2)) with
  | some t => mkDate t.1 t.2.1 t.2.2
  | none => none

/-- Format `"%Y/%m/%d"`. -/
def pat_Y_md (s : List Char) : Option (Nat × Nat × Nat) :=
  match strictFirst (chainYmd '/' s) with
  | some t => mkDate t.1 t.2.1 t.2.2
  | none => none

/-- Format `"%d-%b-%y"`; `_strptime` maps a two-digit year `00..68` to the
2000s and `69..99` to the 1900s. -/
def pat_dby (s : List Char) : Option (Nat × Nat × Nat) :=
  match strictFirst ((reD s).flatMap fun pd =>
      (litCI '-' pd.2).flatMap fun pa =>
      (reName monAbbr pa.2).flatMap fun pb =>
      (litCI '-' pb.2).flatMap fun pc =>
      (re2d pc.2).map fun py => ((pd.1, pb.1, py.1), py.2)) with
  | some t =>
    mkDate (if t.2.2 ≤ 68 then 2000 + t.2.2 else 1900 + t.2.2) t.2.1 t.1
  | none => none

/-- Format `"%d-%B-%Y"`. -/
def pat_dBY (s : List Char) : Option (Nat × Nat × Nat) :=
  match strictFirst ((reD s).flatMap fun pd =>
      (litCI '-' pd.2).flatMap fun pa =>
      (reName monFull pa.2).flatMap fun pb =>
      (litCI '-' pb.2).flatMap fun pc =>
      (reY pc.2).map fun py => ((pd.1, pb.1, py.1), py.2)) with
  | some t => mkDate t.2.2 t.2.1 t.1
  | none => none

/-- The pattern cascade of `parse_date_to_iso`, in source order; the first
template that parses (and validates) wins. -/
def tryPatterns (s : List Char) : Option (Nat × Nat × Nat) :=
  pat_Ymd s <|> pat_YmdTHMSz s <|> pat_YmdTHMS s <|> pat_bdY s <|> pat_BdY s <|>
  pat_mdY s <|> pat_dmY s <|> pat_Y_md s <|> pat_dby s <|> pat_dBY s

/-! ## The two loose-regex fallbacks of `parse_date_to_iso` -/

/-- Match of `(\d{4})[\/\-](\d{2})[\/\-](\d{2})` anchored at the current
position, returning the three groups. -/
def ymdAt (l : List Char) : Option (List Char × List Char × List Char) :=
  match l with
  | a :: b :: c :: d :: s1 :: e :: f :: s2 :: g :: h :: _ =>
    if (a.isDigit && b.isDigit && c.isDigit && d.isDigit) &&
        (s1 == '/' || s1 == '-') && (e.isDigit && f.isDigit) &&
        (s2 == '/' || s2 == '-') && (g.isDigit && h.isDigit) then
      some ([a, b, c, d], [e, f], [g, h])
    else none
  | _ => none

/-- `re.search` for the year-month-day triple: leftmost match wins. -/
def ymdSearch : List Char → Option (List Char × List Char × List Char)
  | [] => none
  | c :: r =>
    match ymdAt (c :: r) with
    | some g => some g
    | none => ymdSearch r

/-- Match of `(\d{4})` anchored at the current position. -/
def year4At (l : List Char) : Option (List Char) :=
  match l with
  | a :: b :: c :: d :: _ =>
    if a.isDigit && b.isDigit && c.isDigit && d.isDigit then some [a, b, c, d]
    else none
  | _ => none

/-- `re.search(r"(\d{4})", s)`: leftmost four consecutive digits. -/
def yearSearch : List Char → Option (List Char)
  | [] => none
  | c :: r =>
    match year4At (c :: r) with
    | some g => some g
    | none => yearSearch r

/-- Zero-padded two-digit rendering (`strftime` `%m` / `%d`). -/
def pad2 (n : Nat) : List Char := [Nat.digitChar (n / 10 % 10), Nat.digitChar (n % 10)]

/-- Zero-padded four-digit rendering (`strftime` `%Y`, documented in the
`datetime` format table as zero-padded: 0001, ..., 2014). -/
def pad4 (n : Nat) : List Char :=
  [Nat.digitChar (n / 1000 % 10), Nat.digitChar (n / 100 % 10),
   Nat.digitChar (n / 10 % 10), Nat.digitChar (n % 10)]

/-- `dt.strftime("%Y-%m-%d")`. -/
def formatDate (t : Nat × Nat × Nat) : List Char :=
  pad4 t.1 ++ '-' :: (pad2 t.2.1 ++ '-' :: pad2 t.2.2)

/-- `parse_date_to_iso(date_str)`: the strptime cascade on the stripped
string, then the loose year-month-day regex on the raw string, then the bare
four-digit-year fallback, else `None`.  `if not date_str` is falsy for both
`None` and the empty string. -/
def parse_date_to_iso (date_str : Option String) : Option String :=
  match date_str with
  | none => none
  | some s =>
    if s.data.isEmpty then none
    else
      match tryPatterns (pyStrip s.data) with
      | some t => some (String.mk (formatDate t))
      | none =>
        match ymdSearch s.data with
        | some g => some (String.mk (g.1 ++ '-' :: (g.2.1 ++ '-' :: g.2.2)))
        | none =>
          match yearSearch s.data with
          | some ys => some (String.mk (ys ++ ['-', '0', '1', '-', '0', '1']))
          | none => none

/-! ## The free-text regex engine of `extract_date`

The four `date_patterns` are sequences of bounded greedy character classes
and word boundaries; `re.search` takes the leftmost match, and within a
position the greedy backtracking order. -/

/-- ASCII digit test for the `\d` class. -/
def isDigitB (c : Char) : Bool := inR c 48 57

/-- The `[A-Za-z]` class. -/
def isAlphaB (c : Char) : Bool := inR c 65 90 || inR c 97 122

/-- The `[/\-]` class. -/
def isSepB (c : Char) : Bool := c == '/' || c == '-'

/-- Word character for `\b` (ASCII fragment of Python's `\w`). -/
def isWordB (c : Char) : Bool := isDigitB c || isAlphaB c || c == '_'

/-- A token of the free-text date regexes: a character class with bounded
greedy repetition, or a word boundary. -/
inductive RTok where
  | cls : (Char → Bool) → Nat → Nat → RTok
  | bnd : RTok

/-- Repetition counts in greedy order: `hi, hi-1, ..., lo`. -/
def countsDesc (lo hi : Nat) : List Nat :=
  (List.range (hi + 1 - lo)).map (fun i => hi - i)

/-- Take exactly `k` characters satisfying `p`. -/
def takeCnt (p : Char → Bool) : Nat → List Char → Option (List Char × List Char)
  | 0, s => some ([], s)
  | _ + 1, [] => none
  | k + 1, c :: cs =>
    if p c then (takeCnt p k cs).map (fun x => (c :: x.1, x.2)) else none

/-- First success over a list of candidates. -/
def firstMatch {α : Type} (l : List Nat) (f : Nat → Option α) : Option α :=
  match l with
  | [] => none
  | k :: ks =>
    match f k with
    | some r => some r
    | none => firstMatch ks f

/-- Word-character test on the previous character (outside the string counts
as a non-word position). -/
def wordB (prev : Option Char) : Bool :=
  match prev with
  | some c => isWordB c
  | none => false

/-- Match a token sequence at the current position, returning the consumed
characters and the rest; `prev` is the character before the position (for
`\b`).  Greedy bounded repetition with backtracking. -/
def matchToks : List RTok → Option Char → List Char → Option (List Char × List Char)
  | [], _, s => some ([], s)
  | RTok.bnd :: ts, prev, s =>
    if wordB prev ≠ (match s with | [] => false | c :: _ => isWordB c) then
      matchToks ts prev s
    else none
  | RTok.cls p lo hi :: ts, prev, s =>
    firstMatch (countsDesc lo hi) fun k =>
      match takeCnt p k s with
      | some pr =>
        (match matchToks ts (match pr.1.getLast? with
                             | some c => some c
                             | none => prev) pr.2 with
         | some qr => some (pr.1 ++ qr.1, qr.2)
         | none => none)
      | none => none

/-- `re.search`: try each position left to right, return the matched text
(`match.group()`). -/
def reSearch (toks : List RTok) (prev : Option Char) (s : List Char) :
    Option (List Char) :=
  match matchToks toks prev s with
  | some pr => some pr.1
  | none =>
    match s with
    | [] => none
    | c :: cs => reSearch toks (some c) cs

/-- Pattern `\b\d{4}-\d{2}-\d{2}\b`. -/
def datePat1 : List RTok :=
  [RTok.bnd, RTok.cls isDigitB 4 4, RTok.cls (fun c => c == '-') 1 1,
   RTok.cls isDigitB 2 2, RTok.cls (fun c => c == '-') 1 1,
   RTok.cls isDigitB 2 2, RTok.bnd]

/-- Pattern `\b[A-Za-z]{3,9} \d{1,2},? \d{4}\b`. -/
def datePat2 : List RTok :=
  [RTok.bnd, RTok.cls isAlphaB 3 9, RTok.cls (fun c => c == ' ') 1 1,
   RTok.cls isDigitB 1 2, RTok.cls (fun c => c == ',') 0 1,
   RTok.cls (fun c => c == ' ') 1 1, RTok.cls isDigitB 4 4, RTok.bnd]

/-- Pattern `\b\d{1,2} [A-Za-z]{3,9} \d{4}\b`. -/
def datePat3 : List RTok :=
  [RTok.bnd, RTok.cls isDigitB 1 2, RTok.cls (fun c => c == ' ') 1 1,
   RTok.cls isAlphaB 3 9, RTok.cls (fun c => c == ' ') 1 1,
   RTok.cls isDigitB 4 4, RTok.bnd]

/-- Pattern `\b\d{1,2}[/\-]\d{1,2}[/\-]\d{2,4}\b`. -/
def datePat4 : List RTok :=
  [RTok.bnd, RTok.cls isDigitB 1 2, RTok.cls isSepB 1 1,
   RTok.cls isDigitB 1 2, RTok.cls isSepB 1 1, RTok.cls isDigitB 2 4, RTok.bnd]

/-- One iteration of the `for pattern in date_patterns` loop:
`if match and (iso_date := parse_date_to_iso(match.group())): return iso_date`. -/
def tryTextPat (pat : List RTok) (txt : List Char) : Option String :=
  match reSearch pat none txt with
  | some g =>
    match parse_date_to_iso (some (String.mk g)) with
    | some iso => if iso.data.isEmpty then none else some iso
    | none => none
  | none => none

/-- The free-text search over the four patterns, in order. -/
def textSearchDate (txt : List Char) : Option String :=
  tryTextPat datePat1 txt <|> tryTextPat datePat2 txt <|>
  tryTextPat datePat3 txt <|> tryTextPat datePat4 txt

/-! ## The parsed document and `extract_date` -/

/-- A parsed document, as `extract_date` / `extract_metadata_from_url` read
it through BeautifulSoup.  For a tag lookup, `none` means the tag is absent;
`some none` means present but without the read attribute; `some (some v)`
means present with attribute value `v`.  A found `Tag` is always truthy
(`Tag.__bool__` returns `True`), so presence alone decides the `or` chains.
`soup.find("time", {"datetime": True})` only finds elements carrying the
attribute, hence a plain `Option String`.  The header fields hold
`get_text()` of `div.post-header` resp. the first `article-header` element. -/
structure ParsedDoc where
  modified_time : Option (Option String)
  published_time : Option (Option String)
  time_datetime : Option String
  post_header_div : Option String
  article_header : Option String
  og_title : Option (Option String)
  author_name : Option (Option String)
  author_article : Option (Option String)
  author_og : Option (Option String)

/-- `if element and (date_str := element.get(attr))`: the element must be
present and the attribute value truthy (non-empty). -/
def getTruthy (elt : Option (Option String)) : Option String :=
  match elt with
  | some (some v) => if v.data.isEmpty then none else some v
  | _ => none

/-- One iteration of the `for element, attr in date_sources` loop: if the
candidate normalizes to a truthy string, return it, else fall through. -/
def trySource (elt : Option (Option String)) : Option String :=
  match getTruthy elt with
  | some ds =>
    match parse_date_to_iso (some ds) with
    | some iso => if iso.data.isEmpty then none else some iso
    | none => none
  | none => none

/-- `extract_date(soup)`: the three structured sources in order, then the
free-text search in `post-header` (or `article-header`). -/
def extract_date (doc : ParsedDoc) : Option String :=
  trySource doc.modified_time <|>
  trySource doc.published_time <|>
  trySource (doc.time_datetime.map some) <|>
  (match doc.post_header_div <|> doc.article_header with
   | some txt => textSearchDate txt.data
   | none => none)

/-! ## `extract_metadata_from_url` -/

/-- The produced metadata record; the success dictionary of the source has no
`error` key, modelled as `error = none`. -/
structure Record where
  url : String
  og_title : Option String
  author : Option String
  article_date : Option String
  error : Option String

/-- The author chain:
`soup.find(name=author) or soup.find(article:author) or soup.find(og:author)`,
then `.get("content")` on the first present tag. -/
def extract_author (doc : ParsedDoc) : Option String :=
  match doc.author_name <|> doc.author_article <|> doc.author_og with
  | some a => a
  | none => none

/-- The body of the `try` block after the fetch: reading
`og_title["content"]` raises `KeyError` when the tag is present without a
`content` attribute; everything else cannot raise. -/
def extractCore (url : String) (doc : ParsedDoc) : Except String Record :=
  match doc.og_title with
  | some none => Except.error "KeyError: content"
  | some (some v) =>
    Except.ok ⟨url, some v, extract_author doc, extract_date doc, none⟩
  | none =>
    Except.ok ⟨url, none, extract_author doc, extract_date doc, none⟩

/-- `extract_metadata_from_url(url)`: the fetch (out of scope, supplied as an
`Except`) and the extraction body run inside one `try`; any exception becomes
a record with all content fields `None` and the message in `error`. -/
def extract_metadata_from_url (url : String) (fetched : Except String ParsedDoc) :
    Record :=
  match fetched with
  | Except.error e => ⟨url, none, none, none, some e⟩
  | Except.ok doc =>
    match extractCore url doc with
    | Except.ok r => r
    | Except.error e => ⟨url, none, none, none, some e⟩

/-! ## Concrete documents and inputs used in the claim analyses -/

/-- Document whose modified-time tag is present but unparseable while the
published-time tag holds a valid date. -/
def docC1w : ParsedDoc :=
  ⟨some (some "soon"), some (some "2025-02-15"), none, none, none, none, none,
   none, none⟩

/-- Document with a present, unparseable modified-time tag ahead of a valid
published-time tag. -/
def docC2cex : ParsedDoc :=
  ⟨some (some "coming soon"), some (some "2025-02-15"), none, none, none, none,
   none, none, none⟩

/-- Document whose first two date tags are present but unparseable, with a
valid `time` element datetime. -/
def docC2w : ParsedDoc :=
  ⟨some (some "soon"), some (some "later"), some "2025-02-15", none, none, none,
   none, none, none⟩

/-- Document whose only date evidence is a `post-header` block with the text
"Updated: 5 March 2024". -/
def docC3x : ParsedDoc :=
  ⟨none, none, none, some "Updated: 5 March 2024", none, none, none, none, none⟩

/-- Document whose `og:title` meta tag is present but carries no `content`
attribute. -/
def docC7cex : ParsedDoc :=
  ⟨none, none, none, none, none, some none, none, none, none⟩

/-- An entirely empty parsed document. -/
def docC7w : ParsedDoc :=
  ⟨none, none, none, none, none, none, none, none, none⟩

/-- Document whose `name=author` meta tag is present without a `content`
attribute while `article:author` carries a value. -/
def docC10w : ParsedDoc :=
  ⟨none, none, none, none, none, none, some none, some (some "Jane Roe"), none⟩

/-- Four consecutive ASCII digits start at position `i` of `l`. -/
def hasRun4 (l : List Char) (i : Nat) : Prop :=
  ∃ a b c d r, l.drop i = a :: b :: c :: d :: r ∧
    a.isDigit ∧ b.isDigit ∧ c.isDigit ∧ d.isDigit

/-- Render a numeric date field of up to two digits, either zero-padded or
minimal (one digit for values below ten), covering both spellings a
slash-separated date can use. -/
def rend (padded : Bool) (x : Nat) : List Char :=
  if padded then pad2 x else (if x < 10 then [Nat.digitChar x] else pad2 x)

/-! ## General lemmas about the normalizer -/

/-- A normalizer success is never the empty string (so the truthiness test on
`iso_date` in `extract_date` always passes on a success). -/
theorem parse_result_ne_empty (s r : String)
    (h : parse_date_to_iso (some s) = some r) : r.data.isEmpty = false := by
  simp only [parse_date_to_iso] at h
  by_cases he : s.data.isEmpty
  · simp [he] at h
  · rw [if_neg he] at h
    rcases htp : tryPatterns (pyStrip s.data) with _ | t <;> rw [htp] at h
    · rcases hsy : ymdSearch s.data with _ | g <;> rw [hsy] at h
      · rcases hys : yearSearch s.data with _ | ys <;> rw [hys] at h
        · exact absurd h (by simp)
        · injection h with h; subst h; cases ys <;> rfl
      · injection h with h; subst h
        obtain ⟨g1, g2, g3⟩ := g; cases g1 <;> rfl
    · injection h with h; subst h; rfl

/-- The empty string normalizes to `None` (`if not date_str`). -/
theorem parse_empty_of_isEmpty (s : String) (h : s.data.isEmpty = true) :
    parse_date_to_iso (some s) = none := by
  simp only [parse_date_to_iso]; rw [if_pos h]

/-- Evaluation of one structured source whose candidate fails to normalize. -/
theorem trySource_of_fail (v : String) (h : parse_date_to_iso (some v) = none) :
    trySource (some (some v)) = none := by
  by_cases hv : v.data.isEmpty
  · simp [trySource, getTruthy, hv]
  · simp [trySource, getTruthy, hv, h]

/-- Evaluation of one structured source whose candidate normalizes. -/
theorem trySource_of_ok (v r : String) (h : parse_date_to_iso (some v) = some r) :
    trySource (some (some v)) = some r := by
  by_cases hv : v.data.isEmpty
  · exact absurd h (by rw [parse_empty_of_isEmpty v hv]; exact fun hc => by cases hc)
  · simp [trySource, getTruthy, hv, h, parse_result_ne_empty v r h]

/-! ## Claim C1 -/

/-- Claim C1: the Candidate Locator tries the sources in order and a
candidate whose normalization fails does not end the locate operation: a
present `article:modified_time` tag with an unparseable content value does
not prevent a valid `article:published_time` tag from yielding the result. -/
theorem C1_locator_advances (doc : ParsedDoc) (v w r : String)
    (hmt : doc.modified_time = some (some v))
    (hvfail : parse_date_to_iso (some v) = none)
    (hpt : doc.published_time = some (some w))
    (hwok : parse_date_to_iso (some w) = some r) :
    extract_date doc = some r := by
  unfold extract_date
  rw [hmt, hpt, trySource_of_fail v hvfail, trySource_of_ok w r hwok]
  rw [Option.none_orElse, Option.some_orElse]

/-- Witness for C1 at a concrete document. -/
theorem C1_locator_advances_witness : extract_date docC1w = some "2025-02-15" :=
  C1_locator_advances docC1w "soon" "2025-02-15" "2025-02-15" rfl (by decide)
    rfl (by decide)

/-! ## Claim C2 -/

/-- Claim C2 counterexample: the locate operation does not stop at the first
present tag; with a present but unparseable `article:modified_time` the
later `article:published_time` source is consulted and yields the result. -/
theorem C2_strict_precedence_counterexample :
    docC2cex.modified_time = some (some "coming soon") ∧
    parse_date_to_iso (some "coming soon") = none ∧
    extract_date docC2cex = some "2025-02-15" :=
  ⟨rfl, by decide, by decide⟩

/-- Claim C2 amended: precedence is semantic, not positional — when the
earlier-priority tags are present but their values fail to normalize, the
locator consults later sources and returns the first candidate in source
order that normalizes. -/
theorem C2_semantic_precedence (doc : ParsedDoc) (u v t r : String)
    (hmt : doc.modified_time = some (some u))
    (hu : parse_date_to_iso (some u) = none)
    (hpt : doc.published_time = some (some v))
    (hv : parse_date_to_iso (some v) = none)
    (htd : doc.time_datetime = some t)
    (ht : parse_date_to_iso (some t) = some r) :
    extract_date doc = some r := by
  unfold extract_date
  rw [hmt, hpt, htd, trySource_of_fail u hu, trySource_of_fail v hv]
  show (none <|> none <|> trySource (some (some t)) <|> _) = some r
  rw [trySource_of_ok t r ht]
  rw [Option.none_orElse, Option.none_orElse, Option.some_orElse]

/-- Witness for the amended C2 at a concrete document. -/
theorem C2_semantic_precedence_witness : extract_date docC2w = some "2025-02-15" :=
  C2_semantic_precedence docC2w "soon" "later" "2025-02-15" "2025-02-15"
    rfl (by decide) rfl (by decide) rfl (by decide)

/-! ## Claim C3 -/

/-- Claim C3 counterexample: on a document whose only date evidence is a
`post-header` block containing "Updated: 5 March 2024", the locate operation
does not return 2024-03-05. -/
theorem C3_free_text_counterexample : extract_date docC3x ≠ some "2024-03-05" := by
  decide

/-- Claim C3 amended: the locate operation returns 2024-01-01 — the day-first
free-text pattern does find "5 March 2024", but the normalizer has no
template for space-separated day-first dates, so the candidate degrades to
the bare-year fallback. -/
theorem C3_free_text_year_fallback :
    extract_date docC3x = some "2024-01-01" ∧
    reSearch datePat3 none "Updated: 5 March 2024".data = some "5 March 2024".data ∧
    parse_date_to_iso (some "5 March 2024") = some "2024-01-01" :=
  ⟨by decide, by decide, by decide⟩

/-! ## Claim C4 (counterexample part) -/

/-- Claim C4 counterexample: the year fallback regex `(\d{4})` has no
boundary anchors, so a five-digit run does produce a year from its first
four digits. -/
theorem C4_longer_run_counterexample :
    parse_date_to_iso (some "12345") = some "1234-01-01" := by decide

/-! ## Claim C6 -/

/-- Claim C6 counterexample: empty input and unparseable input produce the
very same result value, so the two failure conditions are not
distinguishable in the outcome. -/
theorem C6_failure_kinds_counterexample :
    parse_date_to_iso (some "") = parse_date_to_iso (some "no date info") := by
  decide

/-- Claim C6 amended: the normalizer has a single failure value `None`,
returned both for empty (or missing) input and for unparseable input. -/
theorem C6_single_failure_value :
    parse_date_to_iso none = none ∧ parse_date_to_iso (some "") = none ∧
    parse_date_to_iso (some "no date info") = none :=
  ⟨rfl, by decide, by decide⟩

/-! ## Claim C7 -/

/-- Claim C7 counterexample: a parsed document whose `og:title` tag is
present without a `content` attribute makes the extraction body raise
`KeyError`, which the surrounding handler turns into a record whose `error`
field is set — so the extractor does not always return `error = null`. -/
theorem C7_extractor_error_counterexample :
    (extract_metadata_from_url "http://example.com/a" (Except.ok docC7cex)).error =
      some "KeyError: content" := by decide

/-- Claim C7 amended: for every fetched document whose `og:title` tag, when
present, carries a `content` attribute, the extractor returns a record with
`error = null`; missing tags and failed date candidates collapse to null
fields, never to an error. -/
theorem C7_extractor_error_free (url : String) (doc : ParsedDoc)
    (h : doc.og_title = none ∨ ∃ v, doc.og_title = some (some v)) :
    (extract_metadata_from_url url (Except.ok doc)).error = none := by
  rcases h with h | ⟨v, h⟩ <;> simp [extract_metadata_from_url, extractCore, h]

/-- Witness for the amended C7 at a concrete document. -/
theorem C7_extractor_error_free_witness :
    (extract_metadata_from_url "http://example.com/b" (Except.ok docC7w)).error =
      none :=
  C7_extractor_error_free "http://example.com/b" docC7w (Or.inl rfl)

/-! ## Claim C8 -/

/-- Claim C8: whenever a produced record carries an error, all three content
fields are null; partial success occurs only in records without an error. -/
theorem C8_error_implies_null_fields (url : String)
    (fetched : Except String ParsedDoc)
    (h : (extract_metadata_from_url url fetched).error ≠ none) :
    (extract_metadata_from_url url fetched).og_title = none ∧
    (extract_metadata_from_url url fetched).author = none ∧
    (extract_metadata_from_url url fetched).article_date = none := by
  rcases fetched with e | doc
  · exact ⟨rfl, rfl, rfl⟩
  · rcases hog : doc.og_title with _ | ov
    · simp [extract_metadata_from_url, extractCore, hog] at h
    · rcases ov with _ | v
      · simp [extract_metadata_from_url, extractCore, hog]
      · simp [extract_metadata_from_url, extractCore, hog] at h

/-- Witness for C8 at a concrete fetch failure. -/
theorem C8_error_implies_null_fields_witness :
    (extract_metadata_from_url "http://example.com/c" (Except.error "timeout")).og_title = none ∧
    (extract_metadata_from_url "http://example.com/c" (Except.error "timeout")).author = none ∧
    (extract_metadata_from_url "http://example.com/c" (Except.error "timeout")).article_date = none :=
  C8_error_implies_null_fields "http://example.com/c" (Except.error "timeout")
    (by decide)

/-! ## Claim C10 -/

/-- Claim C10: author selection commits to the first present author tag
before reading its `content` attribute — if that tag has no `content`, the
author is null even when a later tag in the chain carries a value. -/
theorem C10_author_commits_first_present (doc : ParsedDoc) (v : String)
    (h1 : doc.author_name = some none)
    (_h2 : doc.author_article = some (some v)) :
    extract_author doc = none := by
  simp [extract_author, h1]

/-- Witness for C10 at a concrete document. -/
theorem C10_author_commits_first_present_witness : extract_author docC10w = none :=
  C10_author_commits_first_present docC10w "Jane Roe" rfl rfl

/-! ## Claim C4 (amended part): characterizing the year fallback -/

/-- Four digits start at position 0 exactly when the anchored `(\d{4})`
match succeeds. -/
theorem hasRun4_zero_iff (l : List Char) :
    hasRun4 l 0 ↔ (year4At l).isSome = true := by
  rcases l with _ | ⟨a, _ | ⟨b, _ | ⟨c, _ | ⟨d, r⟩⟩⟩⟩ <;>
    simp [hasRun4, year4At, Bool.and_eq_true]
  constructor
  · rintro ⟨a1, b1, c1, d1, ⟨rfl, rfl, rfl, rfl⟩, h1, h2, h3, h4⟩
    exact ⟨⟨⟨h1, h2⟩, h3⟩, h4⟩
  · rintro ⟨⟨⟨h1, h2⟩, h3⟩, h4⟩
    exact ⟨a, b, c, d, ⟨rfl, rfl, rfl, rfl⟩, h1, h2, h3, h4⟩

/-- Shifting `hasRun4` along a cons cell. -/
theorem hasRun4_succ (c : Char) (l : List Char) (i : Nat) :
    hasRun4 (c :: l) (i + 1) ↔ hasRun4 l i := by
  simp [hasRun4]

/-- `hasRun4` at any position, through the anchored matcher. -/
theorem hasRun4_iff (l : List Char) (i : Nat) :
    hasRun4 l i ↔ (year4At (l.drop i)).isSome = true := by
  rw [← hasRun4_zero_iff]; simp [hasRun4]

/-- The year search fails exactly when no four consecutive digits occur. -/
theorem yearSearch_eq_none_iff (l : List Char) :
    yearSearch l = none ↔ ∀ i, ¬ hasRun4 l i := by
  induction l with
  | nil =>
    simp only [yearSearch, true_iff]
    intro i h
    obtain ⟨a, b, c, d, r, hdrop, -⟩ := h
    simp at hdrop
  | cons c r ih =>
    unfold yearSearch
    rcases h4 : year4At (c :: r) with _ | g
    · simp only [ih]
      constructor
      · intro h i
        cases i with
        | zero => rw [hasRun4_zero_iff]; simp [h4]
        | succ j => rw [hasRun4_succ]; exact h j
      · intro h j
        have := h (j + 1)
        rwa [hasRun4_succ] at this
    · simp only []
      constructor
      · intro h; cases h
      · intro h
        exact absurd ((hasRun4_zero_iff _).mpr (by simp [h4])) (h 0)

/-- At the leftmost position where four consecutive digits start, the year
search returns exactly those four digits. -/
theorem yearSearch_leftmost (l : List Char) (i : Nat) (h : hasRun4 l i)
    (hmin : ∀ j, j < i → ¬ hasRun4 l j) :
    yearSearch l = some ((l.drop i).take 4) := by
  induction l generalizing i with
  | nil =>
    obtain ⟨a, b, c, d, r, hdrop, -⟩ := h
    simp at hdrop
  | cons c r ih =>
    cases i with
    | zero =>
      obtain ⟨a, b, c', d, t, hdrop, ha, hb, hc, hd⟩ := h
      simp only [List.drop_zero] at hdrop
      unfold yearSearch
      rw [hdrop]
      simp [year4At, ha, hb, hc, hd]
    | succ j =>
      have h0 : ¬ hasRun4 (c :: r) 0 := hmin 0 (Nat.succ_pos j)
      have h4 : year4At (c :: r) = none := by
        rcases hy : year4At (c :: r) with _ | g
        · rfl
        · exact absurd ((hasRun4_zero_iff _).mpr (by simp [hy])) h0
      unfold yearSearch
      rw [h4, List.drop_succ_cons]
      exact ih j ((hasRun4_succ c r j).mp h) (fun k hk => by
        have := hmin (k + 1) (Nat.succ_lt_succ hk)
        rwa [hasRun4_succ] at this)

/-- Claim C4 amended: when no template matches and no year-month-day triple
is found, the normalizer searches for any four consecutive digits — the
first four digits of a longer run qualify — and returns the leftmost such
four digits as the year with month=01, day=01; only when no four consecutive
digits exist does it fail. -/
theorem C4_year_fallback (s : String) (hne : s.data.isEmpty = false)
    (hpat : tryPatterns (pyStrip s.data) = none)
    (hymd : ymdSearch s.data = none) :
    ((∀ i, ¬ hasRun4 s.data i) → parse_date_to_iso (some s) = none) ∧
    (∀ i, hasRun4 s.data i → (∀ j, j < i → ¬ hasRun4 s.data j) →
      parse_date_to_iso (some s) =
        some (String.mk ((s.data.drop i).take 4 ++ ['-', '0', '1', '-', '0', '1']))) := by
  constructor
  · intro h
    simp only [parse_date_to_iso]
    simp [hne, hpat, hymd, (yearSearch_eq_none_iff s.data).mpr h]
  · intro i h hmin
    simp only [parse_date_to_iso]
    simp [hne, hpat, hymd, yearSearch_leftmost s.data i h hmin]

/-- Witness for the amended C4: "in 2019" has its leftmost four-digit run at
position 3 and normalizes to 2019-01-01. -/
theorem C4_year_fallback_witness :
    parse_date_to_iso (some "in 2019") = some "2019-01-01" := by
  have h := (C4_year_fallback "in 2019" (by decide) (by decide) (by decide)).2 3
    (by rw [hasRun4_iff]; decide)
    (by intro j hj; rw [hasRun4_iff]; interval_cases j <;> decide)
  rw [h]
  decide

/-! ## Digit-character toolkit for the symbolic proofs over `strptime` -/

theorem dc_isDigit : ∀ u, u < 10 → (Nat.digitChar u).isDigit = true := by decide

theorem dc_dval : ∀ u, u < 10 → dval (Nat.digitChar u) = u := by decide

theorem dc_beq0 : ∀ u, u < 10 → (Nat.digitChar u == '0') = decide (u = 0) := by decide

theorem dc_beq1 : ∀ u, u < 10 → (Nat.digitChar u == '1') = decide (u = 1) := by decide

theorem dc_beq3 : ∀ u, u < 10 → (Nat.digitChar u == '3') = decide (u = 3) := by decide

theorem dc_inR_48_50 : ∀ u, u < 10 → inR (Nat.digitChar u) 48 50 = decide (u ≤ 2) := by
  decide

theorem dc_inR_49_57 : ∀ u, u < 10 → inR (Nat.digitChar u) 49 57 = decide (1 ≤ u) := by
  decide

theorem dc_inR_48_49 : ∀ u, u < 10 → inR (Nat.digitChar u) 48 49 = decide (u ≤ 1) := by
  decide

theorem dc_inR_49_50 : ∀ u, u < 10 →
    inR (Nat.digitChar u) 49 50 = decide (1 ≤ u ∧ u ≤ 2) := by decide

theorem dc_lower_dash : ∀ u, u < 10 →
    ((Nat.digitChar u).toLower == Char.toLower '-') = false := by decide

theorem dc_lower_slash : ∀ u, u < 10 →
    ((Nat.digitChar u).toLower == Char.toLower '/') = false := by decide

theorem dc_lower_j : ∀ u, u < 10 → ((Nat.digitChar u).toLower == 'j') = false := by decide

theorem dc_lower_f : ∀ u, u < 10 → ((Nat.digitChar u).toLower == 'f') = false := by decide

theorem dc_lower_m : ∀ u, u < 10 → ((Nat.digitChar u).toLower == 'm') = false := by decide

theorem dc_lower_a : ∀ u, u < 10 → ((Nat.digitChar u).toLower == 'a') = false := by decide

theorem dc_lower_s : ∀ u, u < 10 → ((Nat.digitChar u).toLower == 's') = false := by decide

theorem dc_lower_o : ∀ u, u < 10 → ((Nat.digitChar u).toLower == 'o') = false := by decide

theorem dc_lower_n : ∀ u, u < 10 → ((Nat.digitChar u).toLower == 'n') = false := by decide

theorem dc_lower_d : ∀ u, u < 10 → ((Nat.digitChar u).toLower == 'd') = false := by decide

/-- A format literal never matches a digit character (used with a
separator, `T`, `:` or `,` literal). -/
theorem litCI_dc (pat : Char) (u : Nat) (r : List Char)
    (h : ((Nat.digitChar u).toLower == Char.toLower pat) = false) :
    litCI pat (Nat.digitChar u :: r) = [] := by
  simp [litCI, h]

/-- A separator literal (`-` or `/`) against a digit character fails. -/
theorem litCI_sep_dc (sep : Char) (hsep : sep = '-' ∨ sep = '/') (u : Nat)
    (hu : u < 10) (r : List Char) : litCI sep (Nat.digitChar u :: r) = [] := by
  rcases hsep with rfl | rfl
  · exact litCI_dc '-' u r (dc_lower_dash u hu)
  · exact litCI_dc '/' u r (dc_lower_slash u hu)

/-- A separator literal against a separator character: hit iff equal. -/
theorem litCI_sep (sep s : Char) (hsep : sep = '-' ∨ sep = '/')
    (hs : s = '-' ∨ s = '/') (r : List Char) :
    litCI sep (s :: r) = if s = sep then [((), r)] else [] := by
  rcases hsep with rfl | rfl <;> rcases hs with rfl | rfl <;> simp [litCI]

theorem flatMap_if_singleton {α β : Type} (P : Prop) [Decidable P] (x : α)
    (f : α → List β) :
    (if P then [x] else ([] : List α)).flatMap f = if P then f x else [] := by
  split_ifs <;> simp

theorem map_if_singleton {α β : Type} (P : Prop) [Decidable P] (x : α)
    (f : α → β) :
    (if P then [x] else ([] : List α)).map f = if P then [f x] else [] := by
  split_ifs <;> simp

/-! ## Evaluation of the field regexes on digit characters -/

/-- `%Y` on four digit characters. -/
theorem reY_dd (a b c d : Nat) (ha : a < 10) (hb : b < 10) (hc : c < 10)
    (hd : d < 10) (r : List Char) :
    reY (Nat.digitChar a :: Nat.digitChar b :: Nat.digitChar c ::
         Nat.digitChar d :: r) = [(1000 * a + 100 * b + 10 * c + d, r)] := by
  simp [reY, dc_isDigit a ha, dc_isDigit b hb, dc_isDigit c hc, dc_isDigit d hd,
        dc_dval a ha, dc_dval b hb, dc_dval c hc, dc_dval d hd]

/-- `%m` on two digit characters. -/
theorem reM_dd (u v : Nat) (hu : u < 10) (hv : v < 10) (r : List Char) :
    reM (Nat.digitChar u :: Nat.digitChar v :: r) =
      (if u = 1 ∧ v ≤ 2 then [(10 + v, r)] else []) ++
      (if u = 0 ∧ 1 ≤ v then [(v, r)] else []) ++
      (if 1 ≤ u then [(u, Nat.digitChar v :: r)] else []) := by
  simp only [reM, dc_beq1 u hu, dc_beq0 u hu, dc_inR_48_50 v hv,
    dc_inR_49_57 v hv, dc_inR_49_57 u hu, dc_dval u hu, dc_dval v hv,
    Bool.and_eq_true, decide_eq_true_eq, List.append_assoc]

/-- `%d` on two digit characters. -/
theorem reD_dd (u v : Nat) (hu : u < 10) (hv : v < 10) (r : List Char) :
    reD (Nat.digitChar u :: Nat.digitChar v :: r) =
      (if u = 3 ∧ v ≤ 1 then [(30 + v, r)] else []) ++
      (if 1 ≤ u ∧ u ≤ 2 then [(10 * u + v, r)] else []) ++
      (if u = 0 ∧ 1 ≤ v then [(v, r)] else []) ++
      (if 1 ≤ u then [(u, Nat.digitChar v :: r)] else []) := by
  simp only [reD, dc_beq3 u hu, dc_beq0 u hu, dc_inR_48_49 v hv,
    dc_inR_49_50 u hu, dc_isDigit v hv, dc_inR_49_57 v hv, dc_inR_49_57 u hu,
    dc_dval u hu, dc_dval v hv, Bool.and_eq_true, Bool.and_true,
    decide_eq_true_eq, List.append_assoc]

/-- `%m` on a single digit followed by a slash. -/
theorem reM_d_slash (u : Nat) (hu : u < 10) (r : List Char) :
    reM (Nat.digitChar u :: '/' :: r) =
      (if 1 ≤ u then [(u, '/' :: r)] else []) := by
  simp only [reM, dc_inR_49_57 u hu, dc_dval u hu, decide_eq_true_eq,
    (by decide : inR '/' 48 50 = false), (by decide : inR '/' 49 57 = false),
    Bool.and_false, if_false, List.nil_append, Bool.false_eq_true]

/-- `%d` on a single digit followed by a slash. -/
theorem reD_d_slash (u : Nat) (hu : u < 10) (r : List Char) :
    reD (Nat.digitChar u :: '/' :: r) =
      (if 1 ≤ u then [(u, '/' :: r)] else []) := by
  simp only [reD, dc_inR_49_57 u hu, dc_dval u hu, decide_eq_true_eq,
    (by decide : inR '/' 48 49 = false), (by decide : inR '/' 49 57 = false),
    (by decide : ('/').isDigit = false),
    Bool.and_false, if_false, List.nil_append, Bool.false_eq_true]

/-- `%Y` fails when a slash sits in the second position. -/
theorem reY_slash2 (a : Char) (r : List Char) : reY (a :: '/' :: r) = [] := by
  rcases r with _ | ⟨c, _ | ⟨d, r⟩⟩ <;>
    simp [reY, (by decide : ('/').isDigit = false)]

/-- `%Y` fails when a slash sits in the third position. -/
theorem reY_slash3 (a b : Char) (r : List Char) : reY (a :: b :: '/' :: r) = [] := by
  rcases r with _ | ⟨d, r⟩ <;>
    simp [reY, (by decide : ('/').isDigit = false)]

/-- `%b` fails on a leading digit character. -/
theorem reName_abbr_dc (u : Nat) (hu : u < 10) (r : List Char) :
    reName monAbbr (Nat.digitChar u :: r) = [] := by
  simp [reName, monAbbr, matchNameCI, dc_lower_j u hu, dc_lower_f u hu,
    dc_lower_m u hu, dc_lower_a u hu, dc_lower_s u hu, dc_lower_o u hu,
    dc_lower_n u hu, dc_lower_d u hu]

/-- `%B` fails on a leading digit character. -/
theorem reName_full_dc (u : Nat) (hu : u < 10) (r : List Char) :
    reName monFull (Nat.digitChar u :: r) = [] := by
  simp [reName, monFull, matchNameCI, dc_lower_j u hu, dc_lower_f u hu,
    dc_lower_m u hu, dc_lower_a u hu, dc_lower_s u hu, dc_lower_o u hu,
    dc_lower_n u hu, dc_lower_d u hu]

/-! ## Evaluation of the shared `%Y(sep)%m(sep)%d` chain on canonical input -/

theorem pad2_eq (m : Nat) (hm : m < 100) :
    pad2 m = [Nat.digitChar (m / 10), Nat.digitChar (m % 10)] := by
  unfold pad2
  rw [Nat.mod_eq_of_lt (show m / 10 < 10 by omega)]

theorem pad4_eq (y : Nat) (hy : y < 10000) :
    pad4 y = [Nat.digitChar (y / 1000), Nat.digitChar (y / 100 % 10),
      Nat.digitChar (y / 10 % 10), Nat.digitChar (y % 10)] := by
  unfold pad4
  rw [Nat.mod_eq_of_lt (show y / 1000 < 10 by omega)]

/-- The `%d`-and-package tail of the chain, evaluated on a padded day. -/
theorem dayMap_eval (y M d : Nat) (hd : d < 100) :
    ((reD (pad2 d)).map fun pd => ((y, M, pd.1), pd.2)) =
      (if 1 ≤ d ∧ d ≤ 31 then [((y, M, d), ([] : List Char))] else []) ++
      (if 10 ≤ d then [((y, M, d / 10), [Nat.digitChar (d % 10)])] else []) := by
  rw [pad2_eq d hd, reD_dd (d / 10) (d % 10) (by omega) (by omega)]
  simp only [List.map_append, map_if_singleton]
  split_ifs <;> first
    | rfl
    | (exfalso; omega)
    | (simp only [List.nil_append, List.append_nil, List.singleton_append,
        List.cons_append, List.cons.injEq, Prod.mk.injEq, and_true, true_and];
       omega)

/-- Full evaluation of `chainYmd` on a four-two-two digit string with
separator characters drawn from `-` and `/`. -/
theorem chainYmd_eval (sep s1 s2 : Char) (hsep : sep = '-' ∨ sep = '/')
    (hs1 : s1 = '-' ∨ s1 = '/') (hs2 : s2 = '-' ∨ s2 = '/')
    (y m d : Nat) (hy : y < 10000) (hm : m < 100) (hd : d < 100) :
    chainYmd sep (pad4 y ++ s1 :: (pad2 m ++ s2 :: pad2 d)) =
      if s1 = sep ∧ s2 = sep ∧ 1 ≤ m ∧ m ≤ 12 then
        (if 1 ≤ d ∧ d ≤ 31 then [((y, m, d), ([] : List Char))] else []) ++
        (if 10 ≤ d then [((y, m, d / 10), [Nat.digitChar (d % 10)])] else [])
      else [] := by
  rw [pad4_eq y hy, pad2_eq m hm]
  unfold chainYmd
  simp only [List.cons_append, List.nil_append]
  rw [reY_dd (y / 1000) (y / 100 % 10) (y / 10 % 10) (y % 10)
    (by omega) (by omega) (by omega) (by omega)]
  rw [show 1000 * (y / 1000) + 100 * (y / 100 % 10) + 10 * (y / 10 % 10) + y % 10 = y
    from by omega]
  simp only [List.flatMap_cons, List.flatMap_nil, List.append_nil]
  rw [litCI_sep sep s1 hsep hs1, flatMap_if_singleton]
  by_cases hc1 : s1 = sep
  · rw [if_pos hc1]
    rw [reM_dd (m / 10) (m % 10) (by omega) (by omega)]
    simp only [List.flatMap_append, flatMap_if_singleton]
    rw [litCI_sep_dc sep hsep (m % 10) (by omega)]
    simp only [litCI_sep sep s2 hsep hs2, flatMap_if_singleton,
      List.flatMap_nil, ite_self]
    by_cases hc2 : s2 = sep
    · simp only [if_pos hc2, hc1, hc2, true_and]
      rw [dayMap_eval y (10 + m % 10) d hd, dayMap_eval y (m % 10) d hd]
      split_ifs <;> first
        | rfl
        | (exfalso; omega)
        | (simp only [List.nil_append, List.append_nil, List.singleton_append,
            List.cons_append, List.cons.injEq, Prod.mk.injEq, and_true,
            true_and]; omega)
    · simp [hc2]
  · rw [if_neg hc1, if_neg (by tauto)]

/-! ## The ten templates on a canonical four-two-two digit string -/

theorem dc_not_space : ∀ u, u < 10 → isPySpace (Nat.digitChar u) = false := by decide

theorem dc_lower_T : ∀ u, u < 10 →
    ((Nat.digitChar u).toLower == Char.toLower 'T') = false := by decide

theorem daysInMonth_le_31 (y m : Nat) : daysInMonth y m ≤ 31 := by
  unfold daysInMonth; split_ifs <;> omega

theorem daysInMonth_ge_28 (y m : Nat) : 28 ≤ daysInMonth y m := by
  unfold daysInMonth; split_ifs <;> omega

/-- First-match-with-length-check over the day candidates of the chain. -/
theorem strictFirst_day (y m d : Nat) :
    strictFirst ((if 1 ≤ d ∧ d ≤ 31 then [((y, m, d), ([] : List Char))] else []) ++
      (if 10 ≤ d then [((y, m, d / 10), [Nat.digitChar (d % 10)])] else [])) =
      if 1 ≤ d ∧ d ≤ 31 then some (y, m, d) else none := by
  by_cases hd1 : 1 ≤ d ∧ d ≤ 31
  · rw [if_pos hd1, if_pos hd1]; rfl
  · rw [if_neg hd1, if_neg hd1, List.nil_append]
    by_cases hd2 : 10 ≤ d
    · rw [if_pos hd2]; rfl
    · rw [if_neg hd2]; rfl

/-- Template `%Y-%m-%d` on the canonical string: succeeds exactly when both
separators are dashes and the date passes the `datetime` validation. -/
theorem pat_Ymd_c9 (s1 s2 : Char) (hs1 : s1 = '-' ∨ s1 = '/')
    (hs2 : s2 = '-' ∨ s2 = '/') (y m d : Nat) (hy : y < 10000) (hm : m < 100)
    (hd : d < 100) :
    pat_Ymd (pad4 y ++ s1 :: (pad2 m ++ s2 :: pad2 d)) =
      if s1 = '-' ∧ s2 = '-' ∧ validDate y m d then some (y, m, d) else none := by
  unfold pat_Ymd
  rw [chainYmd_eval '-' s1 s2 (Or.inl rfl) hs1 hs2 y m d hy hm hd]
  by_cases hA : s1 = '-' ∧ s2 = '-' ∧ 1 ≤ m ∧ m ≤ 12
  · rw [if_pos hA, strictFirst_day y m d]
    obtain ⟨e1, e2, hm1, hm2⟩ := hA
    by_cases hd1 : 1 ≤ d ∧ d ≤ 31
    · rw [if_pos hd1]
      show mkDate y m d = _
      unfold mkDate
      by_cases hv : validDate y m d
      · rw [if_pos hv, if_pos ⟨e1, e2, hv⟩]
      · rw [if_neg hv, if_neg (fun hc => hv hc.2.2)]
    · rw [if_neg hd1]
      have hnv : ¬ (s1 = '-' ∧ s2 = '-' ∧ validDate y m d) := fun hc => by
        have h31 := daysInMonth_le_31 y m
        have hv := hc.2.2
        unfold validDate at hv
        omega
      rw [if_neg hnv]
  · rw [if_neg hA]
    have hnv : ¬ (s1 = '-' ∧ s2 = '-' ∧ validDate y m d) := fun hc => by
      have hv := hc.2.2
      unfold validDate at hv
      exact hA ⟨hc.1, hc.2.1, hv.2.2.1, hv.2.2.2.1⟩
    rw [if_neg hnv]
    rfl

/-- Template `%Y/%m/%d` on the canonical string. -/
theorem pat_Y_md_c9 (s1 s2 : Char) (hs1 : s1 = '-' ∨ s1 = '/')
    (hs2 : s2 = '-' ∨ s2 = '/') (y m d : Nat) (hy : y < 10000) (hm : m < 100)
    (hd : d < 100) :
    pat_Y_md (pad4 y ++ s1 :: (pad2 m ++ s2 :: pad2 d)) =
      if s1 = '/' ∧ s2 = '/' ∧ validDate y m d then some (y, m, d) else none := by
  unfold pat_Y_md
  rw [chainYmd_eval '/' s1 s2 (Or.inr rfl) hs1 hs2 y m d hy hm hd]
  by_cases hA : s1 = '/' ∧ s2 = '/' ∧ 1 ≤ m ∧ m ≤ 12
  · rw [if_pos hA, strictFirst_day y m d]
    obtain ⟨e1, e2, hm1, hm2⟩ := hA
    by_cases hd1 : 1 ≤ d ∧ d ≤ 31
    · rw [if_pos hd1]
      show mkDate y m d = _
      unfold mkDate
      by_cases hv : validDate y m d
      · rw [if_pos hv, if_pos ⟨e1, e2, hv⟩]
      · rw [if_neg hv, if_neg (fun hc => hv hc.2.2)]
    · rw [if_neg hd1]
      have hnv : ¬ (s1 = '/' ∧ s2 = '/' ∧ validDate y m d) := fun hc => by
        have h31 := daysInMonth_le_31 y m
        have hv := hc.2.2
        unfold validDate at hv
        omega
      rw [if_neg hnv]
  · rw [if_neg hA]
    have hnv : ¬ (s1 = '/' ∧ s2 = '/' ∧ validDate y m d) := fun hc => by
      have hv := hc.2.2
      unfold validDate at hv
      exact hA ⟨hc.1, hc.2.1, hv.2.2.1, hv.2.2.2.1⟩
    rw [if_neg hnv]
    rfl

/-- Template `%Y-%m-%dT%H:%M:%S%z` fails on the canonical string: the `T`
literal meets either the end of the string or a digit. -/
theorem pat_YmdTHMSz_c9 (s1 s2 : Char) (hs1 : s1 = '-' ∨ s1 = '/')
    (hs2 : s2 = '-' ∨ s2 = '/') (y m d : Nat) (hy : y < 10000) (hm : m < 100)
    (hd : d < 100) :
    pat_YmdTHMSz (pad4 y ++ s1 :: (pad2 m ++ s2 :: pad2 d)) = none := by
  unfold pat_YmdTHMSz
  rw [chainYmd_eval '-' s1 s2 (Or.inl rfl) hs1 hs2 y m d hy hm hd]
  by_cases hA : s1 = '-' ∧ s2 = '-' ∧ 1 ≤ m ∧ m ≤ 12
  · rw [if_pos hA]
    simp only [List.flatMap_append, flatMap_if_singleton,
      litCI_dc 'T' (d % 10) [] (dc_lower_T (d % 10) (by omega))]
    simp [litCI, strictFirst]
  · rw [if_neg hA]
    simp [strictFirst]

/-- Template `%Y-%m-%dT%H:%M:%S` fails on the canonical string. -/
theorem pat_YmdTHMS_c9 (s1 s2 : Char) (hs1 : s1 = '-' ∨ s1 = '/')
    (hs2 : s2 = '-' ∨ s2 = '/') (y m d : Nat) (hy : y < 10000) (hm : m < 100)
    (hd : d < 100) :
    pat_YmdTHMS (pad4 y ++ s1 :: (pad2 m ++ s2 :: pad2 d)) = none := by
  unfold pat_YmdTHMS
  rw [chainYmd_eval '-' s1 s2 (Or.inl rfl) hs1 hs2 y m d hy hm hd]
  by_cases hA : s1 = '-' ∧ s2 = '-' ∧ 1 ≤ m ∧ m ≤ 12
  · rw [if_pos hA]
    simp only [List.flatMap_append, flatMap_if_singleton,
      litCI_dc 'T' (d % 10) [] (dc_lower_T (d % 10) (by omega))]
    simp [litCI, strictFirst]
  · rw [if_neg hA]
    simp [strictFirst]

/-- Template `%b %d, %Y` fails on the canonical string (leading digit). -/
theorem pat_bdY_c9 (s1 s2 : Char) (y m d : Nat) (hy : y < 10000) :
    pat_bdY (pad4 y ++ s1 :: (pad2 m ++ s2 :: pad2 d)) = none := by
  unfold pat_bdY chain_bdY
  rw [pad4_eq y hy]
  simp only [List.cons_append, reName_abbr_dc (y / 1000) (by omega),
    List.flatMap_nil]
  rfl

/-- Template `%B %d, %Y` fails on the canonical string (leading digit). -/
theorem pat_BdY_c9 (s1 s2 : Char) (y m d : Nat) (hy : y < 10000) :
    pat_BdY (pad4 y ++ s1 :: (pad2 m ++ s2 :: pad2 d)) = none := by
  unfold pat_BdY chain_bdY
  rw [pad4_eq y hy]
  simp only [List.cons_append, reName_full_dc (y / 1000) (by omega),
    List.flatMap_nil]
  rfl

/-- Template `%m/%d/%Y` fails on the canonical string: the slash literal
meets the third or second digit of the year. -/
theorem pat_mdY_c9 (s1 s2 : Char) (y m d : Nat) (hy : y < 10000) :
    pat_mdY (pad4 y ++ s1 :: (pad2 m ++ s2 :: pad2 d)) = none := by
  unfold pat_mdY
  rw [pad4_eq y hy]
  simp only [List.cons_append]
  rw [reM_dd (y / 1000) (y / 100 % 10) (by omega) (by omega)]
  simp only [List.flatMap_append, flatMap_if_singleton,
    litCI_sep_dc '/' (Or.inr rfl) (y / 10 % 10) (by omega),
    litCI_sep_dc '/' (Or.inr rfl) (y / 100 % 10) (by omega),
    List.flatMap_nil, ite_self, List.append_nil, List.nil_append]
  rfl

/-- Template `%d/%m/%Y` fails on the canonical string. -/
theorem pat_dmY_c9 (s1 s2 : Char) (y m d : Nat) (hy : y < 10000) :
    pat_dmY (pad4 y ++ s1 :: (pad2 m ++ s2 :: pad2 d)) = none := by
  unfold pat_dmY
  rw [pad4_eq y hy]
  simp only [List.cons_append]
  rw [reD_dd (y / 1000) (y / 100 % 10) (by omega) (by omega)]
  simp only [List.flatMap_append, flatMap_if_singleton,
    litCI_sep_dc '/' (Or.inr rfl) (y / 10 % 10) (by omega),
    litCI_sep_dc '/' (Or.inr rfl) (y / 100 % 10) (by omega),
    List.flatMap_nil, ite_self, List.append_nil, List.nil_append]
  rfl

/-- Template `%d-%b-%y` fails on the canonical string. -/
theorem pat_dby_c9 (s1 s2 : Char) (y m d : Nat) (hy : y < 10000) :
    pat_dby (pad4 y ++ s1 :: (pad2 m ++ s2 :: pad2 d)) = none := by
  unfold pat_dby
  rw [pad4_eq y hy]
  simp only [List.cons_append]
  rw [reD_dd (y / 1000) (y / 100 % 10) (by omega) (by omega)]
  simp only [List.flatMap_append, flatMap_if_singleton,
    litCI_sep_dc '-' (Or.inl rfl) (y / 10 % 10) (by omega),
    litCI_sep_dc '-' (Or.inl rfl) (y / 100 % 10) (by omega),
    List.flatMap_nil, ite_self, List.append_nil, List.nil_append]
  rfl

/-- Template `%d-%B-%Y` fails on the canonical string. -/
theorem pat_dBY_c9 (s1 s2 : Char) (y m d : Nat) (hy : y < 10000) :
    pat_dBY (pad4 y ++ s1 :: (pad2 m ++ s2 :: pad2 d)) = none := by
  unfold pat_dBY
  rw [pad4_eq y hy]
  simp only [List.cons_append]
  rw [reD_dd (y / 1000) (y / 100 % 10) (by omega) (by omega)]
  simp only [List.flatMap_append, flatMap_if_singleton,
    litCI_sep_dc '-' (Or.inl rfl) (y / 10 % 10) (by omega),
    litCI_sep_dc '-' (Or.inl rfl) (y / 100 % 10) (by omega),
    List.flatMap_nil, ite_self, List.append_nil, List.nil_append]
  rfl

/-! ## Claim C9: the cascade and fallbacks on the canonical string -/

/-- The whole template cascade on the canonical four-two-two string. -/
theorem tryPatterns_c9 (s1 s2 : Char) (hs1 : s1 = '-' ∨ s1 = '/')
    (hs2 : s2 = '-' ∨ s2 = '/') (y m d : Nat) (hy : y < 10000) (hm : m < 100)
    (hd : d < 100) :
    tryPatterns (pad4 y ++ s1 :: (pad2 m ++ s2 :: pad2 d)) =
      if s1 = '-' ∧ s2 = '-' ∧ validDate y m d then some (y, m, d)
      else if s1 = '/' ∧ s2 = '/' ∧ validDate y m d then some (y, m, d)
      else none := by
  unfold tryPatterns
  rw [pat_Ymd_c9 s1 s2 hs1 hs2 y m d hy hm hd,
      pat_YmdTHMSz_c9 s1 s2 hs1 hs2 y m d hy hm hd,
      pat_YmdTHMS_c9 s1 s2 hs1 hs2 y m d hy hm hd,
      pat_bdY_c9 s1 s2 y m d hy,
      pat_BdY_c9 s1 s2 y m d hy,
      pat_mdY_c9 s1 s2 y m d hy,
      pat_dmY_c9 s1 s2 y m d hy,
      pat_Y_md_c9 s1 s2 hs1 hs2 y m d hy hm hd,
      pat_dby_c9 s1 s2 y m d hy,
      pat_dBY_c9 s1 s2 y m d hy]
  by_cases hA : s1 = '-' ∧ s2 = '-' ∧ validDate y m d
  · rw [if_pos hA]
    simp only [Option.some_orElse]
    rw [if_pos hA]
  · rw [if_neg hA]
    simp only [Option.none_orElse]
    rw [if_neg hA]
    by_cases hB : s1 = '/' ∧ s2 = '/' ∧ validDate y m d
    · rw [if_pos hB]
      simp only [Option.some_orElse]
    · rw [if_neg hB]
      simp only [Option.none_orElse]

/-- `dropWhile` is the identity when no element satisfies the predicate. -/
theorem dropWhile_eq_self_of (p : Char → Bool) (l : List Char)
    (h : ∀ c ∈ l, p c = false) : l.dropWhile p = l := by
  cases l with
  | nil => rfl
  | cons c r => simp [List.dropWhile_cons, h c (List.mem_cons_self c r)]

/-- `str.strip()` is the identity on whitespace-free strings. -/
theorem pyStrip_id (l : List Char) (h : ∀ c ∈ l, isPySpace c = false) :
    pyStrip l = l := by
  unfold pyStrip
  rw [dropWhile_eq_self_of _ l h,
      dropWhile_eq_self_of _ l.reverse (fun c hc => h c (List.mem_reverse.mp hc)),
      List.reverse_reverse]

/-- The canonical string has no whitespace. -/
theorem c9_chars_not_space (s1 s2 : Char) (hs1 : s1 = '-' ∨ s1 = '/')
    (hs2 : s2 = '-' ∨ s2 = '/') (y m d : Nat) (hy : y < 10000) (hm : m < 100)
    (hd : d < 100) :
    ∀ c ∈ pad4 y ++ s1 :: (pad2 m ++ s2 :: pad2 d), isPySpace c = false := by
  intro c hc
  rw [pad4_eq y hy, pad2_eq m hm, pad2_eq d hd] at hc
  simp only [List.mem_append, List.mem_cons, List.not_mem_nil, or_false] at hc
  rcases hc with ⟨rfl | rfl | rfl | rfl⟩ | rfl | ⟨rfl | rfl⟩ | rfl | rfl | rfl <;>
    first
      | exact dc_not_space _ (by omega)
      | (rcases hs1 with rfl | rfl <;> rfl)
      | (rcases hs2 with rfl | rfl <;> rfl)

/-- The loose year-month-day regex finds the whole canonical string at
position zero, with the three groups equal to the rendered fields. -/
theorem ymdSearch_c9 (s1 s2 : Char) (hs1 : s1 = '-' ∨ s1 = '/')
    (hs2 : s2 = '-' ∨ s2 = '/') (y m d : Nat) (hy : y < 10000) (hm : m < 100)
    (hd : d < 100) :
    ymdSearch (pad4 y ++ s1 :: (pad2 m ++ s2 :: pad2 d)) =
      some (pad4 y, pad2 m, pad2 d) := by
  rw [pad4_eq y hy, pad2_eq m hm, pad2_eq d hd]
  have e1 : (s1 == '/' || s1 == '-') = true := by rcases hs1 with rfl | rfl <;> rfl
  have e2 : (s2 == '/' || s2 == '-') = true := by rcases hs2 with rfl | rfl <;> rfl
  simp only [List.cons_append, List.nil_append]
  have hat : ymdAt (Nat.digitChar (y / 1000) :: Nat.digitChar (y / 100 % 10) ::
      Nat.digitChar (y / 10 % 10) :: Nat.digitChar (y % 10) :: s1 ::
      Nat.digitChar (m / 10) :: Nat.digitChar (m % 10) :: s2 ::
      Nat.digitChar (d / 10) :: Nat.digitChar (d % 10) :: []) =
      some ([Nat.digitChar (y / 1000), Nat.digitChar (y / 100 % 10),
             Nat.digitChar (y / 10 % 10), Nat.digitChar (y % 10)],
            [Nat.digitChar (m / 10), Nat.digitChar (m % 10)],
            [Nat.digitChar (d / 10), Nat.digitChar (d % 10)]) := by
    simp [ymdAt, dc_isDigit (y / 1000) (by omega), dc_isDigit (y / 100 % 10) (by omega),
      dc_isDigit (y / 10 % 10) (by omega), dc_isDigit (y % 10) (by omega),
      dc_isDigit (m / 10) (by omega), dc_isDigit (m % 10) (by omega),
      dc_isDigit (d / 10) (by omega), dc_isDigit (d % 10) (by omega), e1, e2]
  simp only [ymdSearch, hat]

/-- Claim C9: every string of the shape four digits, separator, two digits,
separator, two digits, with separators drawn from dash and slash in
year-month-day order, normalizes to exactly that year, month and day,
whether or not the month and day are calendar-valid. -/
theorem C9_canonical_roundtrip (y m d : Nat) (s1 s2 : Char)
    (hy : y < 10000) (hm : m < 100) (hd : d < 100)
    (hs1 : s1 = '-' ∨ s1 = '/') (hs2 : s2 = '-' ∨ s2 = '/') :
    parse_date_to_iso (some (String.mk (pad4 y ++ s1 :: (pad2 m ++ s2 :: pad2 d)))) =
      some (String.mk (pad4 y ++ '-' :: (pad2 m ++ '-' :: pad2 d))) := by
  have hne : (pad4 y ++ s1 :: (pad2 m ++ s2 :: pad2 d)).isEmpty = false := by
    rw [pad4_eq y hy]; rfl
  simp only [parse_date_to_iso]
  rw [if_neg (by simp [hne])]
  rw [pyStrip_id _ (c9_chars_not_space s1 s2 hs1 hs2 y m d hy hm hd)]
  rw [tryPatterns_c9 s1 s2 hs1 hs2 y m d hy hm hd]
  by_cases hA : s1 = '-' ∧ s2 = '-' ∧ validDate y m d
  · rw [if_pos hA]
    rfl
  · rw [if_neg hA]
    by_cases hB : s1 = '/' ∧ s2 = '/' ∧ validDate y m d
    · rw [if_pos hB]
      rfl
    · rw [if_neg hB]
      rw [ymdSearch_c9 s1 s2 hs1 hs2 y m d hy hm hd]

/-- Witness for C9 at the spec's own example. -/
theorem C9_canonical_roundtrip_witness :
    parse_date_to_iso (some "2025-02-15") = some "2025-02-15" := by
  have h := C9_canonical_roundtrip 2025 2 15 '-' '-' (by decide) (by decide)
    (by decide) (Or.inl rfl) (Or.inl rfl)
  have e : String.mk (pad4 2025 ++ '-' :: (pad2 2 ++ '-' :: pad2 15)) =
      "2025-02-15" := by decide
  rw [e] at h
  exact h

/-! ## Claim C5: ambiguous slash dates resolve in US order -/

/-- A rendered one-or-two-digit field is either a single digit character or
the two-digit zero-padded form. -/
theorem rend_cases (p : Bool) (x : Nat) (hx1 : 1 ≤ x) (hx2 : x ≤ 12) :
    (x < 10 ∧ p = false ∧ rend p x = [Nat.digitChar x]) ∨
    rend p x = [Nat.digitChar (x / 10), Nat.digitChar (x % 10)] := by
  cases p
  · by_cases hx : x < 10
    · exact Or.inl ⟨hx, rfl, by simp [rend, hx]⟩
    · right
      rw [show rend false x = pad2 x from by simp [rend, hx]]
      exact pad2_eq x (by omega)
  · right
    rw [show rend true x = pad2 x from rfl]
    exact pad2_eq x (by omega)

/-- The slash literal matches a slash. -/
theorem litCI_slash_hit (r : List Char) : litCI '/' ('/' :: r) = [((), r)] := rfl

/-- `%m` on a rendered month followed by a slash: the month value, plus (for
two-digit months) a one-digit candidate that later dies at the literal. -/
theorem reM_c5 (p1 : Bool) (m : Nat) (hm1 : 1 ≤ m) (hm2 : m ≤ 12) (r : List Char) :
    reM (rend p1 m ++ '/' :: r) =
      (m, '/' :: r) ::
        (if 10 ≤ m then [(m / 10, Nat.digitChar (m % 10) :: '/' :: r)] else []) := by
  rcases rend_cases p1 m hm1 hm2 with ⟨hlt, -, hrend⟩ | hrend <;> rw [hrend] <;>
    simp only [List.cons_append, List.nil_append]
  · rw [reM_d_slash m (by omega), if_pos hm1, if_neg (by omega)]
  · rw [reM_dd (m / 10) (m % 10) (by omega) (by omega)]
    by_cases h10 : 10 ≤ m
    · rw [if_pos (show m / 10 = 1 ∧ m % 10 ≤ 2 by omega), if_neg (by omega),
        if_pos (show 1 ≤ m / 10 by omega), if_pos h10]
      rw [show 10 + m % 10 = m from by omega]
      simp
    · rw [if_neg (by omega), if_pos (show m / 10 = 0 ∧ 1 ≤ m % 10 by omega),
        if_neg (by omega), if_neg h10]
      rw [show m % 10 = m from by omega]
      simp

/-- `%d` on a rendered day followed by a slash. -/
theorem reD_c5 (p2 : Bool) (d : Nat) (hd1 : 1 ≤ d) (hd2 : d ≤ 12) (r : List Char) :
    reD (rend p2 d ++ '/' :: r) =
      (d, '/' :: r) ::
        (if 10 ≤ d then [(d / 10, Nat.digitChar (d % 10) :: '/' :: r)] else []) := by
  rcases rend_cases p2 d hd1 hd2 with ⟨hlt, -, hrend⟩ | hrend <;> rw [hrend] <;>
    simp only [List.cons_append, List.nil_append]
  · rw [reD_d_slash d (by omega), if_pos hd1, if_neg (by omega)]
  · rw [reD_dd (d / 10) (d % 10) (by omega) (by omega)]
    by_cases h10 : 10 ≤ d
    · rw [if_neg (by omega), if_pos (show 1 ≤ d / 10 ∧ d / 10 ≤ 2 by omega),
        if_neg (by omega), if_pos (show 1 ≤ d / 10 by omega)]
      rw [show 10 * (d / 10) + d % 10 = d from by omega, if_pos h10]
      simp
    · rw [if_neg (by omega), if_neg (by omega),
        if_pos (show d / 10 = 0 ∧ 1 ≤ d % 10 by omega), if_neg (by omega),
        if_neg h10]
      rw [show d % 10 = d from by omega]
      simp

/-- `%Y` fails at the start of a slash-separated month-first string. -/
theorem reY_c5_nil (p1 : Bool) (m : Nat) (hm1 : 1 ≤ m) (hm2 : m ≤ 12)
    (r : List Char) : reY (rend p1 m ++ '/' :: r) = [] := by
  rcases rend_cases p1 m hm1 hm2 with ⟨-, -, hrend⟩ | hrend <;> rw [hrend] <;>
    simp only [List.cons_append, List.nil_append]
  · exact reY_slash2 _ _
  · exact reY_slash3 _ _ _

/-- Templates one to three fail on the slash string (they start with `%Y`). -/
theorem pat_Ymd_c5 (p1 : Bool) (m : Nat) (hm1 : 1 ≤ m) (hm2 : m ≤ 12)
    (r : List Char) : pat_Ymd (rend p1 m ++ '/' :: r) = none := by
  unfold pat_Ymd chainYmd
  rw [reY_c5_nil p1 m hm1 hm2]
  rfl

theorem pat_YmdTHMSz_c5 (p1 : Bool) (m : Nat) (hm1 : 1 ≤ m) (hm2 : m ≤ 12)
    (r : List Char) : pat_YmdTHMSz (rend p1 m ++ '/' :: r) = none := by
  unfold pat_YmdTHMSz chainYmd
  rw [reY_c5_nil p1 m hm1 hm2]
  rfl

theorem pat_YmdTHMS_c5 (p1 : Bool) (m : Nat) (hm1 : 1 ≤ m) (hm2 : m ≤ 12)
    (r : List Char) : pat_YmdTHMS (rend p1 m ++ '/' :: r) = none := by
  unfold pat_YmdTHMS chainYmd
  rw [reY_c5_nil p1 m hm1 hm2]
  rfl

/-- Templates four and five fail on the slash string (leading digit). -/
theorem pat_bdY_c5 (p1 : Bool) (m : Nat) (hm1 : 1 ≤ m) (hm2 : m ≤ 12)
    (r : List Char) : pat_bdY (rend p1 m ++ '/' :: r) = none := by
  unfold pat_bdY chain_bdY
  rcases rend_cases p1 m hm1 hm2 with ⟨hlt, -, hrend⟩ | hrend <;> rw [hrend] <;>
    simp only [List.cons_append, List.nil_append]
  · rw [reName_abbr_dc m (by omega)]; rfl
  · rw [reName_abbr_dc (m / 10) (by omega)]; rfl

theorem pat_BdY_c5 (p1 : Bool) (m : Nat) (hm1 : 1 ≤ m) (hm2 : m ≤ 12)
    (r : List Char) : pat_BdY (rend p1 m ++ '/' :: r) = none := by
  unfold pat_BdY chain_bdY
  rcases rend_cases p1 m hm1 hm2 with ⟨hlt, -, hrend⟩ | hrend <;> rw [hrend] <;>
    simp only [List.cons_append, List.nil_append]
  · rw [reName_full_dc m (by omega)]; rfl
  · rw [reName_full_dc (m / 10) (by omega)]; rfl

/-- Template `%m/%d/%Y` succeeds on the slash string with the US reading. -/
theorem pat_mdY_c5 (p1 p2 : Bool) (y m d : Nat) (hy1 : 1 ≤ y) (hy : y < 10000)
    (hm1 : 1 ≤ m) (hm2 : m ≤ 12) (hd1 : 1 ≤ d) (hd2 : d ≤ 12) :
    pat_mdY (rend p1 m ++ '/' :: (rend p2 d ++ '/' :: pad4 y)) = some (y, m, d) := by
  unfold pat_mdY
  rw [reM_c5 p1 m hm1 hm2]
  simp only [List.flatMap_cons, flatMap_if_singleton, litCI_slash_hit,
    litCI_sep_dc '/' (Or.inr rfl) (m % 10) (by omega), List.flatMap_nil,
    ite_self, List.append_nil]
  rw [reD_c5 p2 d hd1 hd2]
  simp only [List.flatMap_cons, flatMap_if_singleton, litCI_slash_hit,
    litCI_sep_dc '/' (Or.inr rfl) (d % 10) (by omega), List.flatMap_nil,
    ite_self, List.append_nil]
  rw [pad4_eq y hy, reY_dd (y / 1000) (y / 100 % 10) (y / 10 % 10) (y % 10)
    (by omega) (by omega) (by omega) (by omega)]
  rw [show 1000 * (y / 1000) + 100 * (y / 100 % 10) + 10 * (y / 10 % 10) + y % 10 = y
    from by omega]
  have h28 := daysInMonth_ge_28 y m
  show mkDate y m d = _
  unfold mkDate
  rw [if_pos (show validDate y m d from ⟨hy1, by omega, hm1, hm2, hd1, by omega⟩)]

/-- Every character of the slash string is a digit or a slash. -/
theorem c5_chars_not_space (p1 p2 : Bool) (y m d : Nat) (hy : y < 10000)
    (hm1 : 1 ≤ m) (hm2 : m ≤ 12) (hd1 : 1 ≤ d) (hd2 : d ≤ 12) :
    ∀ c ∈ rend p1 m ++ '/' :: (rend p2 d ++ '/' :: pad4 y),
      isPySpace c = false := by
  have hdig : ∀ (p : Bool) (x : Nat), 1 ≤ x → x ≤ 12 → ∀ c ∈ rend p x,
      ∃ u, u < 10 ∧ c = Nat.digitChar u := by
    intro p x h1 h2 c hc
    rcases rend_cases p x h1 h2 with ⟨hlt, -, hr⟩ | hr <;> rw [hr] at hc <;>
      simp only [List.mem_cons, List.not_mem_nil, or_false] at hc
    · exact ⟨x, by omega, hc⟩
    · rcases hc with rfl | rfl
      · exact ⟨x / 10, by omega, rfl⟩
      · exact ⟨x % 10, by omega, rfl⟩
  intro c hc
  simp only [List.mem_append, List.mem_cons] at hc
  rcases hc with h | rfl | h | rfl | h
  · obtain ⟨u, hu, rfl⟩ := hdig p1 m hm1 hm2 c h
    exact dc_not_space u hu
  · rfl
  · obtain ⟨u, hu, rfl⟩ := hdig p2 d hd1 hd2 c h
    exact dc_not_space u hu
  · rfl
  · rw [pad4_eq y hy] at h
    simp only [List.mem_cons, List.not_mem_nil, or_false] at h
    rcases h with rfl | rfl | rfl | rfl <;> exact dc_not_space _ (by omega)

/-- Claim C5: the US slash order `MM/DD/YYYY` is tried before the European
order `DD/MM/YYYY` and the first success wins, so every slash-separated
input valid under both orders gets the US-order reading. -/
theorem C5_us_order (m d y : Nat) (p1 p2 : Bool)
    (hm1 : 1 ≤ m) (hm2 : m ≤ 12) (hd1 : 1 ≤ d) (hd2 : d ≤ 12)
    (hy1 : 1 ≤ y) (hy : y < 10000) :
    parse_date_to_iso
        (some (String.mk (rend p1 m ++ '/' :: (rend p2 d ++ '/' :: pad4 y)))) =
      some (String.mk (formatDate (y, m, d))) := by
  have hne : (rend p1 m ++ '/' :: (rend p2 d ++ '/' :: pad4 y)).isEmpty = false := by
    rcases rend_cases p1 m hm1 hm2 with ⟨-, -, hrend⟩ | hrend <;> rw [hrend] <;> rfl
  simp only [parse_date_to_iso]
  rw [if_neg (by simp [hne])]
  rw [pyStrip_id _ (c5_chars_not_space p1 p2 y m d hy hm1 hm2 hd1 hd2)]
  unfold tryPatterns
  rw [pat_Ymd_c5 p1 m hm1 hm2, pat_YmdTHMSz_c5 p1 m hm1 hm2,
    pat_YmdTHMS_c5 p1 m hm1 hm2, pat_bdY_c5 p1 m hm1 hm2, pat_BdY_c5 p1 m hm1 hm2,
    pat_mdY_c5 p1 p2 y m d hy1 hy hm1 hm2 hd1 hd2]
  simp only [Option.none_orElse, Option.some_orElse]

/-- Witness for C5 at the spec's pinned example. -/
theorem C5_us_order_witness :
    parse_date_to_iso (some "03/04/2025") = some "2025-03-04" := by
  have h := C5_us_order 3 4 2025 true true (by decide) (by decide) (by decide)
    (by decide) (by decide) (by decide)
  have e1 : String.mk (rend true 3 ++ '/' :: (rend true 4 ++ '/' :: pad4 2025)) =
      "03/04/2025" := by decide
  have e2 : String.mk (formatDate (2025, 3, 4)) = "2025-03-04" := by decide
  rw [e1, e2] at h
  exact h
